import Mathlib

/-!
Verification of the color-classification and gaze-estimation pipeline of the
net-art repository ("The Observer Effect").  The analysis functions of
`src/exhibition/js/exhibition_js_v2.js` are embedded as executable functions
over exact rationals (JavaScript decimal literals such as 0.2 are read as the
exact rationals they denote), and the properties stated in the design
specification are proved or refuted against them.  The older script version
(`src/unnamed/part_000`) is embedded in the `V1` namespace.
-/

namespace NetArt

/-- An RGB color as produced by getDominantColor: three channel values on the
0..255 scale.  Rational-valued so classifier arithmetic is exact. -/
structure RGB where
  r : ℚ
  g : ℚ
  b : ℚ
deriving DecidableEq

/-- An HSL color as returned by rgbToHsl: hue in degrees, saturation and
lightness in [0,1]. -/
structure HSL where
  h : ℚ
  s : ℚ
  l : ℚ
deriving DecidableEq

/-- One pixel of a Pixel Sample: the four interleaved channels (R,G,B,A) of
the canvas ImageData buffer, each an unsigned byte value. -/
structure RGBA where
  r : ℕ
  g : ℕ
  b : ℕ
  a : ℕ
deriving DecidableEq

/-- A facial landmark point in frame pixel coordinates. -/
structure Point where
  x : ℚ
  y : ℚ
deriving DecidableEq

/-- A face bounding box in frame pixel coordinates. -/
structure Box where
  x : ℚ
  y : ℚ
  width : ℚ
  height : ℚ
deriving DecidableEq

/-- JavaScript Math.round on a (finite, exactly represented) number: round
half away from zero toward positive infinity, i.e. the floor of x + 1/2. -/
def mathRound (q : ℚ) : ℤ := ⌊q + 1/2⌋

/-- The body of rgbToHsl (exhibition_js_v2.js lines 683-704) after the three
channels have been divided by 255: lightness is the mean of the channel
extremes; an equal max and min gives the achromatic result h = s = 0;
otherwise saturation divides the chroma d by (2 - max - min) or (max + min)
according to lightness, and hue is chosen by which channel is maximal (the
switch tries r, then g, then b), each branch a 60-degree sector offset,
scaled to degrees at the end. -/
def normHsl (r g b : ℚ) : HSL :=
  let maxc := max r (max g b)
  let minc := min r (min g b)
  let l := (maxc + minc) / 2
  if maxc = minc then ⟨0, 0, l⟩
  else
    let d := maxc - minc
    let s := if 0.5 < l then d / (2 - maxc - minc) else d / (maxc + minc)
    let h :=
      if maxc = r then ((g - b) / d + if g < b then 6 else 0) / 6
      else if maxc = g then ((b - r) / d + 2) / 6
      else ((r - g) / d + 4) / 6
    ⟨h * 360, s, l⟩

/-- Embeds rgbToHsl (exhibition_js_v2.js lines 683-704): the source first
rescales each channel from 0..255 to 0..1 and then runs the min/max
decomposition, here factored out as normHsl. -/
def rgbToHsl (r g b : ℚ) : HSL := normHsl (r / 255) (g / 255) (b / 255)

/-- Embeds classifyEyeColor (exhibition_js_v2.js lines 639-649): ordered
threshold rules on the HSL conversion of the color, the HAZEL/GREEN split
comparing the raw blue channel against 0.7 times the raw green channel. -/
def classifyEyeColor (color : RGB) : String :=
  let hsl := rgbToHsl color.r color.g color.b
  if hsl.l < 0.2 then "DARK BROWN"
  else if hsl.s < 0.15 then (if hsl.l < 0.4 then "DARK GRAY" else "GRAY")
  else if 180 ≤ hsl.h ∧ hsl.h ≤ 260 then
    (if hsl.l < 0.4 then "DARK BLUE" else if 0.6 < hsl.l then "LIGHT BLUE" else "BLUE")
  else if 80 ≤ hsl.h ∧ hsl.h ≤ 160 then
    (if color.g * 0.7 < color.b then "HAZEL" else "GREEN")
  else if 20 ≤ hsl.h ∧ hsl.h ≤ 50 then
    (if 0.5 < hsl.l then "AMBER" else if 0.35 < hsl.l then "LIGHT BROWN" else "BROWN")
  else "BROWN"

/-- Embeds classifyHairColor (exhibition_js_v2.js lines 651-662). -/
def classifyHairColor (color : RGB) : String :=
  let hsl := rgbToHsl color.r color.g color.b
  if hsl.l < 0.15 then "BLACK"
  else if hsl.l < 0.25 then "DARK BROWN"
  else if 0.7 < hsl.l ∧ hsl.s < 0.3 then "GRAY/WHITE"
  else if 0.6 < hsl.l then "BLONDE"
  else if 0 ≤ hsl.h ∧ hsl.h ≤ 30 ∧ 0.3 < hsl.s then "RED/AUBURN"
  else if hsl.l < 0.4 then "BROWN"
  else "LIGHT BROWN"

/-- Embeds classifyBackgroundColor (exhibition_js_v2.js lines 664-681):
an achromatic override below saturation 0.1, otherwise ordered hue buckets. -/
def classifyBackgroundColor (color : RGB) : String :=
  let hsl := rgbToHsl color.r color.g color.b
  if hsl.s < 0.1 then
    if hsl.l < 0.3 then "DARK"
    else if 0.7 < hsl.l then "LIGHT"
    else "NEUTRAL"
  else
    if hsl.h < 30 then "WARM TONES"
    else if hsl.h < 90 then "YELLOW/GREEN"
    else if hsl.h < 150 then "GREEN/CYAN"
    else if hsl.h < 210 then "BLUE"
    else if hsl.h < 270 then "PURPLE"
    else if hsl.h < 330 then "PINK/MAGENTA"
    else "RED/WARM"

/-- Embeds the label computation of analyzeBackground (exhibition_js_v2.js
lines 602-613) applied to the averaged background color: the brightness
bucket from the mean of the three channels, prefixed by the background color
name with the literal separator " / ". -/
def backgroundLabel (color : RGB) : String :=
  let brightness := (color.r + color.g + color.b) / 3
  let environment :=
    if brightness < 50 then "DARK ENVIRONMENT"
    else if brightness < 100 then "DIM LIGHTING"
    else if brightness < 180 then "NORMAL LIGHTING"
    else "BRIGHT ENVIRONMENT"
  let colorName := classifyBackgroundColor color
  colorName ++ " / " ++ environment

/-- Embeds getDominantColor (exhibition_js_v2.js lines 622-637): the loop
steps through the interleaved buffer four channels at a time, summing R, G
and B and counting pixels, then divides each sum by the count and rounds.
On an empty buffer the three divisions are 0/0 (NaN in the source), modelled
as none. -/
def getDominantColor (pixels : List RGBA) : Option RGB :=
  let count := pixels.length
  if count = 0 then none
  else some
    { r := (mathRound ((pixels.map fun p => (p.r : ℚ)).sum / count) : ℤ)
      g := (mathRound ((pixels.map fun p => (p.g : ℚ)).sum / count) : ℤ)
      b := (mathRound ((pixels.map fun p => (p.b : ℚ)).sum / count) : ℤ) }

/-- Embeds the returned direction of estimateGaze (exhibition_js_v2.js lines
376-399): the nose offset from the face-box center, normalized by the box
dimensions, thresholded into a horizontal label and a vertical prefix which
are concatenated; the source's final `direction || 'CENTER'` replaces an
empty result string.  The two eye centers are accepted and ignored, as in
the source.  The observation side effect is modelled separately by
reportIfChanged. -/
def estimateGaze (leftEye rightEye nose : Point) (faceBox : Box) : String :=
  let faceCenterX := faceBox.x + faceBox.width / 2
  let faceCenterY := faceBox.y + faceBox.height / 2
  let offsetX := (nose.x - faceCenterX) / faceBox.width
  let offsetY := (nose.y - faceCenterY) / faceBox.height
  let horizontal := if offsetX < -0.05 then "LEFT" else if 0.05 < offsetX then "RIGHT" else "CENTER"
  let vertical := if offsetY < -0.1 then "UP-" else if 0.1 < offsetY then "DOWN-" else ""
  let direction := vertical ++ horizontal
  if direction = "" then "CENTER" else direction

/-- State of one change-triggered reporter: the stored last-reported label
(None models the null initial value of state.eyeColor, state.hairColor and
state.backgroundColor) and the observation messages emitted so far. -/
structure ReportState where
  lastLabel : Option String
  entries : List String
deriving DecidableEq

/-- Embeds the change-triggered reporting pattern shared by analyzeEyeColor
(lines 556-560), analyzeHairColor (lines 584-588), analyzeBackground (lines
615-619) and estimateGaze (lines 394-398): when the freshly computed label
differs from the stored one, store it and append one Observation Entry,
otherwise do nothing. -/
def reportIfChanged (st : ReportState) (lbl : String) : ReportState :=
  if some lbl ≠ st.lastLabel then { lastLabel := some lbl, entries := st.entries ++ [lbl] }
  else st

/-- Runs a change-triggered reporter over a sequence of computed labels,
starting from the given stored label (none for the color classifiers,
some "CENTER" for the gaze estimator, whose state.gazeDirection starts as
'CENTER'). -/
def runReports (init : Option String) (labels : List String) : ReportState :=
  labels.foldl reportIfChanged ⟨init, []⟩

/-- Models CanvasRenderingContext2D.getImageData on a frame given as a pixel
function: the browser call throws an IndexSizeError when the requested width
or height is zero (modelled as none), and otherwise yields the sw times sh
pixels of the region row by row. -/
def getImageData (frame : ℕ → ℕ → RGBA) (x y sw sh : ℕ) : Option (List RGBA) :=
  if sw = 0 ∨ sh = 0 then none
  else some ((List.range sh).flatMap fun dy => (List.range sw).map fun dx => frame (x + dx) (y + dy))

/-- Embeds the guard of analyzeColors (exhibition_js_v2.js lines 521-532):
the three analysis passes run unless the webcam is inactive or the detection
canvas is missing; the sizes of the sampled regions are never examined. -/
def analyzeColorsRuns (webcamActive : Bool) (hasCanvas : Bool) : Bool :=
  webcamActive && hasCanvas

/-- Embeds the no-detection branch of analyzeEyeColor (exhibition_js_v2.js
lines 547-554) on a canvas of width w and height h: it samples the fixed
fractional region (w*0.35, h*0.3, w*0.3, h*0.1) - the fractional sizes
truncate to integers when passed to getImageData - and classifies the
averaged color; no zero-size check precedes the sampling call. -/
def analyzeEyeColorFallback (frame : ℕ → ℕ → RGBA) (w h : ℕ) : Option String :=
  (getImageData frame (7 * w / 20) (3 * h / 10) (3 * w / 10) (h / 10)).bind fun region =>
    (getDominantColor region).map fun c => classifyEyeColor c

/-- Modelled from the spec: the inverse HSL-to-RGB conversion, which section
8 of the specification asserts round-trips with rgbToHsl, is absent from the
source; this is the hue2rgb helper of the standard CSS conversion the
specification's wording refers to.  The sector value t is wrapped into
[0,1] and mapped piecewise linearly between p and q. -/
def hue2rgb (p q t : ℚ) : ℚ :=
  let t1 := if t < 0 then t + 1 else t
  let t2 := if 1 < t1 then t1 - 1 else t1
  if t2 < 1/6 then p + (q - p) * 6 * t2
  else if t2 < 1/2 then q
  else if t2 < 2/3 then p + (q - p) * (2/3 - t2) * 6
  else p

/-- Modelled from the spec: the standard HSL-to-RGB conversion (hue in
degrees as produced by rgbToHsl, saturation and lightness in [0,1]),
returning channels on the 0..255 scale without rounding - over exact
rationals the specification's "within floating rounding tolerance" sharpens
to exact equality. -/
def hslToRgb (h s l : ℚ) : RGB :=
  let hn := h / 360
  if s = 0 then ⟨255 * l, 255 * l, 255 * l⟩
  else
    let q := if l < 1/2 then l * (1 + s) else l + s - l * s
    let p := 2 * l - q
    ⟨255 * hue2rgb p q (hn + 1/3), 255 * hue2rgb p q hn, 255 * hue2rgb p q (hn - 1/3)⟩

end NetArt

namespace NetArt.V1

/-- The body of the older rgbToHsl (src/unnamed/part_000 lines 579-606)
after channel normalization; the source text of the conversion is the same
as in the newer script. -/
def normHsl (r g b : ℚ) : HSL :=
  let maxc := max r (max g b)
  let minc := min r (min g b)
  let l := (maxc + minc) / 2
  if maxc = minc then ⟨0, 0, l⟩
  else
    let d := maxc - minc
    let s := if 0.5 < l then d / (2 - maxc - minc) else d / (maxc + minc)
    let h :=
      if maxc = r then ((g - b) / d + if g < b then 6 else 0) / 6
      else if maxc = g then ((b - r) / d + 2) / 6
      else ((r - g) / d + 4) / 6
    ⟨h * 360, s, l⟩

/-- Embeds rgbToHsl of the older script (src/unnamed/part_000). -/
def rgbToHsl (r g b : ℚ) : HSL := normHsl (r / 255) (g / 255) (b / 255)

/-- Embeds getDominantColor of the older script (src/unnamed/part_000 lines
475-491), whose loop is the same as the newer one. -/
def getDominantColor (pixels : List RGBA) : Option RGB :=
  let count := pixels.length
  if count = 0 then none
  else some
    { r := (mathRound ((pixels.map fun p => (p.r : ℚ)).sum / count) : ℤ)
      g := (mathRound ((pixels.map fun p => (p.g : ℚ)).sum / count) : ℤ)
      b := (mathRound ((pixels.map fun p => (p.b : ℚ)).sum / count) : ℤ) }

/-- Embeds classifyEyeColor of the older script (src/unnamed/part_000 lines
493-532): it destructures the channels first but applies the same ordered
rules as the newer version. -/
def classifyEyeColor (color : RGB) : String :=
  let hsl := rgbToHsl color.r color.g color.b
  if hsl.l < 0.2 then "DARK BROWN"
  else if hsl.s < 0.15 then (if hsl.l < 0.4 then "DARK GRAY" else "GRAY")
  else if 180 ≤ hsl.h ∧ hsl.h ≤ 260 then
    (if hsl.l < 0.4 then "DARK BLUE" else if 0.6 < hsl.l then "LIGHT BLUE" else "BLUE")
  else if 80 ≤ hsl.h ∧ hsl.h ≤ 160 then
    (if color.g * 0.7 < color.b then "HAZEL" else "GREEN")
  else if 20 ≤ hsl.h ∧ hsl.h ≤ 50 then
    (if 0.5 < hsl.l then "AMBER" else if 0.35 < hsl.l then "LIGHT BROWN" else "BROWN")
  else "BROWN"

/-- Embeds classifyHairColor of the older script (src/unnamed/part_000
lines 534-556). -/
def classifyHairColor (color : RGB) : String :=
  let hsl := rgbToHsl color.r color.g color.b
  if hsl.l < 0.15 then "BLACK"
  else if hsl.l < 0.25 then "DARK BROWN"
  else if 0.7 < hsl.l ∧ hsl.s < 0.3 then "GRAY/WHITE"
  else if 0.6 < hsl.l then "BLONDE"
  else if 0 ≤ hsl.h ∧ hsl.h ≤ 30 ∧ 0.3 < hsl.s then "RED/AUBURN"
  else if hsl.l < 0.4 then "BROWN"
  else "LIGHT BROWN"

/-- Embeds classifyBackgroundColor of the older script (src/unnamed/part_000
lines 558-577). -/
def classifyBackgroundColor (color : RGB) : String :=
  let hsl := rgbToHsl color.r color.g color.b
  if hsl.s < 0.1 then
    if hsl.l < 0.3 then "DARK"
    else if 0.7 < hsl.l then "LIGHT"
    else "NEUTRAL"
  else
    if hsl.h < 30 then "WARM TONES"
    else if hsl.h < 90 then "YELLOW/GREEN"
    else if hsl.h < 150 then "GREEN/CYAN"
    else if hsl.h < 210 then "BLUE"
    else if hsl.h < 270 then "PURPLE"
    else if hsl.h < 330 then "PINK/MAGENTA"
    else "RED/WARM"

/-- Embeds the returned direction of the older estimateGaze
(src/unnamed/part_000 lines 270-301): it additionally computes the midpoint
of the two eye centers, which takes no part in the returned direction. -/
def estimateGaze (leftEye rightEye nose : Point) (faceBox : Box) : String :=
  let faceCenterX := faceBox.x + faceBox.width / 2
  let faceCenterY := faceBox.y + faceBox.height / 2
  let eyeMidX := (leftEye.x + rightEye.x) / 2
  let eyeMidY := (leftEye.y + rightEye.y) / 2
  let offsetX := (nose.x - faceCenterX) / faceBox.width
  let offsetY := (nose.y - faceCenterY) / faceBox.height
  let horizontal := if offsetX < -0.05 then "LEFT" else if 0.05 < offsetX then "RIGHT" else "CENTER"
  let vertical := if offsetY < -0.1 then "UP-" else if 0.1 < offsetY then "DOWN-" else ""
  let direction := vertical ++ horizontal
  if direction = "" then "CENTER" else direction

end NetArt.V1

namespace NetArt

/-! ### Helper lemmas about the HSL conversion -/

lemma normHsl_achromatic (r g b : ℚ) (h : max r (max g b) = min r (min g b)) :
    normHsl r g b = ⟨0, 0, (max r (max g b) + min r (min g b)) / 2⟩ := by
  simp only [normHsl, if_pos h]

lemma normHsl_chromatic (r g b : ℚ) (h : max r (max g b) ≠ min r (min g b)) :
    normHsl r g b =
      ⟨(if max r (max g b) = r then
          ((g - b) / (max r (max g b) - min r (min g b)) + if g < b then 6 else 0) / 6
        else if max r (max g b) = g then
          ((b - r) / (max r (max g b) - min r (min g b)) + 2) / 6
        else ((r - g) / (max r (max g b) - min r (min g b)) + 4) / 6) * 360,
       if 0.5 < (max r (max g b) + min r (min g b)) / 2 then
         (max r (max g b) - min r (min g b)) / (2 - max r (max g b) - min r (min g b))
       else (max r (max g b) - min r (min g b)) / (max r (max g b) + min r (min g b)),
       (max r (max g b) + min r (min g b)) / 2⟩ := by
  simp only [normHsl, if_neg h]

lemma max_eq_min_iff (r g b : ℚ) :
    max r (max g b) = min r (min g b) ↔ r = g ∧ g = b := by
  constructor
  · intro h
    have h1 : min r (min g b) ≤ r := min_le_left _ _
    have h2 : min r (min g b) ≤ g := le_trans (min_le_right _ _) (min_le_left _ _)
    have h3 : min r (min g b) ≤ b := le_trans (min_le_right _ _) (min_le_right _ _)
    have h4 : r ≤ max r (max g b) := le_max_left _ _
    have h5 : g ≤ max r (max g b) := le_trans (le_max_left _ _) (le_max_right _ _)
    have h6 : b ≤ max r (max g b) := le_trans (le_max_right _ _) (le_max_right _ _)
    constructor <;> linarith
  · rintro ⟨rfl, rfl⟩
    simp

lemma hue_sector_bound (x d e : ℚ) (hd : 0 < d) (h0 : 0 ≤ x + e * d) (h6 : x + e * d < 6 * d) :
    0 ≤ ((x / d + e) / 6) * 360 ∧ ((x / d + e) / 6) * 360 < 360 := by
  have hde : x / d + e = (x + e * d) / d := by field_simp
  have h1 : 0 ≤ (x + e * d) / d := div_nonneg h0 hd.le
  have h2 : (x + e * d) / d < 6 := (div_lt_iff₀ hd).mpr (by linarith)
  constructor
  · rw [hde]; linarith
  · rw [hde]; linarith

lemma normHsl_h_bounds (r g b : ℚ) :
    0 ≤ (normHsl r g b).h ∧ (normHsl r g b).h < 360 := by
  by_cases hmm : max r (max g b) = min r (min g b)
  · rw [normHsl_achromatic r g b hmm]
    norm_num
  · rw [normHsl_chromatic r g b hmm]
    have hrM : r ≤ max r (max g b) := le_max_left _ _
    have hgM : g ≤ max r (max g b) := le_trans (le_max_left _ _) (le_max_right _ _)
    have hbM : b ≤ max r (max g b) := le_trans (le_max_right _ _) (le_max_right _ _)
    have hmr : min r (min g b) ≤ r := min_le_left _ _
    have hmg : min r (min g b) ≤ g := le_trans (min_le_right _ _) (min_le_left _ _)
    have hmb : min r (min g b) ≤ b := le_trans (min_le_right _ _) (min_le_right _ _)
    have hd : 0 < max r (max g b) - min r (min g b) :=
      sub_pos.mpr (lt_of_le_of_ne (le_trans hmr hrM) fun h => hmm h.symm)
    dsimp only
    split_ifs with h1 h2 h3
    · exact hue_sector_bound _ _ 6 hd (by linarith) (by linarith)
    · exact hue_sector_bound _ _ 0 hd (by linarith) (by linarith)
    · exact hue_sector_bound _ _ 2 hd (by linarith) (by linarith)
    · exact hue_sector_bound _ _ 4 hd (by linarith) (by linarith)

lemma normHsl_s_bounds (r g b : ℚ) (h0r : 0 ≤ r) (h1r : r ≤ 1) (h0g : 0 ≤ g)
    (h1g : g ≤ 1) (h0b : 0 ≤ b) (h1b : b ≤ 1) :
    0 ≤ (normHsl r g b).s ∧ (normHsl r g b).s ≤ 1 := by
  by_cases hmm : max r (max g b) = min r (min g b)
  · rw [normHsl_achromatic r g b hmm]
    norm_num
  · rw [normHsl_chromatic r g b hmm]
    have hm0 : 0 ≤ min r (min g b) := le_min h0r (le_min h0g h0b)
    have hM1 : max r (max g b) ≤ 1 := max_le h1r (max_le h1g h1b)
    have hd : 0 < max r (max g b) - min r (min g b) :=
      sub_pos.mpr (lt_of_le_of_ne (le_trans (min_le_left _ _) (le_max_left _ _))
        fun h => hmm h.symm)
    dsimp only
    split_ifs with hl
    · have hden : 0 < 2 - max r (max g b) - min r (min g b) := by linarith
      exact ⟨div_nonneg (by linarith) hden.le, (div_le_one hden).mpr (by linarith)⟩
    · have hden : 0 < max r (max g b) + min r (min g b) := by linarith
      exact ⟨div_nonneg (by linarith) hden.le, (div_le_one hden).mpr (by linarith)⟩

lemma normHsl_l_eq (r g b : ℚ) :
    (normHsl r g b).l = (max r (max g b) + min r (min g b)) / 2 := by
  by_cases hmm : max r (max g b) = min r (min g b)
  · rw [normHsl_achromatic r g b hmm]
  · rw [normHsl_chromatic r g b hmm]

/-- C2: for all channel inputs in [0,255] (integer or not), rgbToHsl is total
with hue in [0,360), saturation in [0,1], lightness equal to the mean of the
normalized channel extremes and lying in [0,1]; the divisors used for
saturation and hue are nonzero whenever they are used (max distinct from
min), so no division by zero occurs; equal channels give hue 0 and
saturation 0, and in particular black maps to (0,0,0) and white to (0,0,1). -/
theorem rgbToHsl_total_in_range (r g b : ℚ)
    (hr0 : 0 ≤ r) (hr1 : r ≤ 255) (hg0 : 0 ≤ g) (hg1 : g ≤ 255)
    (hb0 : 0 ≤ b) (hb1 : b ≤ 255) :
    (0 ≤ (rgbToHsl r g b).h ∧ (rgbToHsl r g b).h < 360) ∧
    (0 ≤ (rgbToHsl r g b).s ∧ (rgbToHsl r g b).s ≤ 1) ∧
    ((rgbToHsl r g b).l =
        (max (r/255) (max (g/255) (b/255)) + min (r/255) (min (g/255) (b/255))) / 2 ∧
      0 ≤ (rgbToHsl r g b).l ∧ (rgbToHsl r g b).l ≤ 1) ∧
    (max (r/255) (max (g/255) (b/255)) ≠ min (r/255) (min (g/255) (b/255)) →
      max (r/255) (max (g/255) (b/255)) - min (r/255) (min (g/255) (b/255)) ≠ 0 ∧
      max (r/255) (max (g/255) (b/255)) + min (r/255) (min (g/255) (b/255)) ≠ 0 ∧
      2 - max (r/255) (max (g/255) (b/255)) - min (r/255) (min (g/255) (b/255)) ≠ 0) ∧
    (r = g → g = b → (rgbToHsl r g b).h = 0 ∧ (rgbToHsl r g b).s = 0) ∧
    rgbToHsl 0 0 0 = ⟨0, 0, 0⟩ ∧ rgbToHsl 255 255 255 = ⟨0, 0, 1⟩ := by
  have h0r : 0 ≤ r / 255 := by positivity
  have h1r : r / 255 ≤ 1 := by rw [div_le_one] <;> linarith
  have h0g : 0 ≤ g / 255 := by positivity
  have h1g : g / 255 ≤ 1 := by rw [div_le_one] <;> linarith
  have h0b : 0 ≤ b / 255 := by positivity
  have h1b : b / 255 ≤ 1 := by rw [div_le_one] <;> linarith
  refine ⟨normHsl_h_bounds _ _ _,
    normHsl_s_bounds _ _ _ h0r h1r h0g h1g h0b h1b,
    ⟨normHsl_l_eq _ _ _, ?_, ?_⟩, ?_, ?_, ?_, ?_⟩
  · rw [rgbToHsl, normHsl_l_eq]
    have := le_min h0r (le_min h0g h0b)
    have := max_le h1r (max_le h1g h1b)
    have : min (r/255) (min (g/255) (b/255)) ≤ max (r/255) (max (g/255) (b/255)) :=
      le_trans (min_le_left _ _) (le_max_left _ _)
    linarith [le_min h0r (le_min h0g h0b)]
  · rw [rgbToHsl, normHsl_l_eq]
    have h1 : max (r/255) (max (g/255) (b/255)) ≤ 1 := max_le h1r (max_le h1g h1b)
    have h2 : min (r/255) (min (g/255) (b/255)) ≤ max (r/255) (max (g/255) (b/255)) :=
      le_trans (min_le_left _ _) (le_max_left _ _)
    linarith
  · intro hne
    have hm0 : 0 ≤ min (r/255) (min (g/255) (b/255)) := le_min h0r (le_min h0g h0b)
    have hM1 : max (r/255) (max (g/255) (b/255)) ≤ 1 := max_le h1r (max_le h1g h1b)
    have hd : 0 < max (r/255) (max (g/255) (b/255)) - min (r/255) (min (g/255) (b/255)) :=
      sub_pos.mpr (lt_of_le_of_ne (le_trans (min_le_left _ _) (le_max_left _ _))
        fun h => hne h.symm)
    exact ⟨by linarith, by linarith, by linarith⟩
  · intro hrg hgb
    subst hrg; subst hgb
    have : max (r/255) (max (r/255) (r/255)) = min (r/255) (min (r/255) (r/255)) := by simp
    rw [rgbToHsl, normHsl_achromatic _ _ _ this]
    exact ⟨rfl, rfl⟩
  · norm_num [rgbToHsl, normHsl, max_def, min_def]
  · norm_num [rgbToHsl, normHsl, max_def, min_def]

/-- Witness for C2 at the concrete integer input (10, 20, 30). -/
theorem rgbToHsl_total_in_range_witness :
    (0 ≤ (rgbToHsl 10 20 30).h ∧ (rgbToHsl 10 20 30).h < 360) ∧
    (0 ≤ (rgbToHsl 10 20 30).s ∧ (rgbToHsl 10 20 30).s ≤ 1) ∧
    ((rgbToHsl 10 20 30).l =
        (max (10/255 : ℚ) (max (20/255) (30/255)) + min (10/255 : ℚ) (min (20/255) (30/255))) / 2 ∧
      0 ≤ (rgbToHsl 10 20 30).l ∧ (rgbToHsl 10 20 30).l ≤ 1) ∧
    (max (10/255 : ℚ) (max (20/255) (30/255)) ≠ min (10/255 : ℚ) (min (20/255) (30/255)) →
      max (10/255 : ℚ) (max (20/255) (30/255)) - min (10/255 : ℚ) (min (20/255) (30/255)) ≠ 0 ∧
      max (10/255 : ℚ) (max (20/255) (30/255)) + min (10/255 : ℚ) (min (20/255) (30/255)) ≠ 0 ∧
      2 - max (10/255 : ℚ) (max (20/255) (30/255)) - min (10/255 : ℚ) (min (20/255) (30/255)) ≠ 0) ∧
    ((10 : ℚ) = 20 → (20 : ℚ) = 30 → (rgbToHsl 10 20 30).h = 0 ∧ (rgbToHsl 10 20 30).s = 0) ∧
    rgbToHsl 0 0 0 = ⟨0, 0, 0⟩ ∧ rgbToHsl 255 255 255 = ⟨0, 0, 1⟩ :=
  rgbToHsl_total_in_range 10 20 30 (by norm_num) (by norm_num) (by norm_num)
    (by norm_num) (by norm_num) (by norm_num)

/-- C1: classifyEyeColor evaluates its rules in order with the first match
winning: lightness below 0.2 gives DARK BROWN; otherwise saturation below
0.15 gives DARK GRAY or GRAY by lightness 0.4; otherwise hue in [180,260]
gives the blue family by lightness thresholds 0.4 and 0.6; otherwise hue in
[80,160] gives HAZEL when the blue channel exceeds 0.7 times the green
channel and GREEN otherwise; otherwise hue in [20,50] gives the amber-brown
family by lightness thresholds 0.5 and 0.35; otherwise BROWN.  Any input of
lightness exactly 0.1 yields DARK BROWN. -/
theorem classifyEyeColor_ordered_rules (c : RGB) (h s l : ℚ)
    (hhsl : rgbToHsl c.r c.g c.b = ⟨h, s, l⟩) :
    (l < 0.2 → classifyEyeColor c = "DARK BROWN") ∧
    (0.2 ≤ l → s < 0.15 →
      classifyEyeColor c = if l < 0.4 then "DARK GRAY" else "GRAY") ∧
    (0.2 ≤ l → 0.15 ≤ s → 180 ≤ h → h ≤ 260 →
      classifyEyeColor c =
        if l < 0.4 then "DARK BLUE" else if 0.6 < l then "LIGHT BLUE" else "BLUE") ∧
    (0.2 ≤ l → 0.15 ≤ s → ¬(180 ≤ h ∧ h ≤ 260) → 80 ≤ h → h ≤ 160 →
      classifyEyeColor c = if c.g * 0.7 < c.b then "HAZEL" else "GREEN") ∧
    (0.2 ≤ l → 0.15 ≤ s → ¬(180 ≤ h ∧ h ≤ 260) → ¬(80 ≤ h ∧ h ≤ 160) →
        20 ≤ h → h ≤ 50 →
      classifyEyeColor c =
        if 0.5 < l then "AMBER" else if 0.35 < l then "LIGHT BROWN" else "BROWN") ∧
    (0.2 ≤ l → 0.15 ≤ s → ¬(180 ≤ h ∧ h ≤ 260) → ¬(80 ≤ h ∧ h ≤ 160) →
        ¬(20 ≤ h ∧ h ≤ 50) →
      classifyEyeColor c = "BROWN") ∧
    (l = 0.1 → classifyEyeColor c = "DARK BROWN") := by
  simp only [classifyEyeColor, hhsl]
  refine ⟨?_, ?_, ?_, ?_, ?_, ?_, ?_⟩
  · intro h1
    rw [if_pos h1]
  · intro h1 h2
    rw [if_neg (not_lt.mpr h1), if_pos h2]
  · intro h1 h2 h3 h4
    rw [if_neg (not_lt.mpr h1), if_neg (not_lt.mpr h2), if_pos ⟨h3, h4⟩]
  · intro h1 h2 hn h3 h4
    rw [if_neg (not_lt.mpr h1), if_neg (not_lt.mpr h2), if_neg hn, if_pos ⟨h3, h4⟩]
  · intro h1 h2 hn1 hn2 h3 h4
    rw [if_neg (not_lt.mpr h1), if_neg (not_lt.mpr h2), if_neg hn1, if_neg hn2,
      if_pos ⟨h3, h4⟩]
  · intro h1 h2 hn1 hn2 hn3
    rw [if_neg (not_lt.mpr h1), if_neg (not_lt.mpr h2), if_neg hn1, if_neg hn2, if_neg hn3]
  · intro hl
    have : l < 0.2 := by rw [hl]; norm_num
    rw [if_pos this]

/-- Witness for C1: the color (51, 0, 0) has lightness exactly 0.1 and is
classified DARK BROWN through the first rule. -/
theorem classifyEyeColor_ordered_rules_witness :
    classifyEyeColor ⟨51, 0, 0⟩ = "DARK BROWN" :=
  (classifyEyeColor_ordered_rules ⟨51, 0, 0⟩ 0 1 0.1
    (by norm_num [rgbToHsl, normHsl, max_def, min_def])).2.2.2.2.2.2 (by norm_num)

/-- C7: classifyHairColor evaluates its rules in order: lightness below 0.15
gives BLACK; below 0.25 DARK BROWN; lightness above 0.7 with saturation
below 0.3 gives GRAY/WHITE; lightness above 0.6 BLONDE; hue in [0,30] with
saturation above 0.3 RED/AUBURN; lightness below 0.4 BROWN; else LIGHT
BROWN.  In particular RGB (20,20,20) is BLACK and RGB (230,230,230) is
GRAY/WHITE. -/
theorem classifyHairColor_ordered_rules (c : RGB) (h s l : ℚ)
    (hhsl : rgbToHsl c.r c.g c.b = ⟨h, s, l⟩) :
    (l < 0.15 → classifyHairColor c = "BLACK") ∧
    (0.15 ≤ l → l < 0.25 → classifyHairColor c = "DARK BROWN") ∧
    (0.25 ≤ l → 0.7 < l → s < 0.3 → classifyHairColor c = "GRAY/WHITE") ∧
    (0.25 ≤ l → ¬(0.7 < l ∧ s < 0.3) → 0.6 < l → classifyHairColor c = "BLONDE") ∧
    (0.25 ≤ l → ¬(0.7 < l ∧ s < 0.3) → l ≤ 0.6 → 0 ≤ h → h ≤ 30 → 0.3 < s →
      classifyHairColor c = "RED/AUBURN") ∧
    (0.25 ≤ l → ¬(0.7 < l ∧ s < 0.3) → l ≤ 0.6 → ¬(0 ≤ h ∧ h ≤ 30 ∧ 0.3 < s) →
        l < 0.4 → classifyHairColor c = "BROWN") ∧
    (0.25 ≤ l → ¬(0.7 < l ∧ s < 0.3) → l ≤ 0.6 → ¬(0 ≤ h ∧ h ≤ 30 ∧ 0.3 < s) →
        0.4 ≤ l → classifyHairColor c = "LIGHT BROWN") ∧
    classifyHairColor ⟨20, 20, 20⟩ = "BLACK" ∧
    classifyHairColor ⟨230, 230, 230⟩ = "GRAY/WHITE" := by
  simp only [classifyHairColor, hhsl]
  have h15 : (0.15 : ℚ) < 0.25 := by norm_num
  refine ⟨?_, ?_, ?_, ?_, ?_, ?_, ?_, ?_, ?_⟩
  · intro h1
    rw [if_pos (by linarith : l < 0.15)]
  · intro h1 h2
    rw [if_neg (not_lt.mpr h1), if_pos h2]
  · intro h1 h2 h3
    rw [if_neg (not_lt.mpr (by linarith)), if_neg (not_lt.mpr h1), if_pos ⟨h2, h3⟩]
  · intro h1 hn h2
    rw [if_neg (not_lt.mpr (by linarith)), if_neg (not_lt.mpr h1), if_neg hn, if_pos h2]
  · intro h1 hn h2 h3 h4 h5
    rw [if_neg (not_lt.mpr (by linarith)), if_neg (not_lt.mpr h1), if_neg hn,
      if_neg (not_lt.mpr h2), if_pos ⟨h3, h4, h5⟩]
  · intro h1 hn h2 hn2 h3
    rw [if_neg (not_lt.mpr (by linarith)), if_neg (not_lt.mpr h1), if_neg hn,
      if_neg (not_lt.mpr h2), if_neg hn2, if_pos h3]
  · intro h1 hn h2 hn2 h3
    rw [if_neg (not_lt.mpr (by linarith)), if_neg (not_lt.mpr h1), if_neg hn,
      if_neg (not_lt.mpr h2), if_neg hn2, if_neg (not_lt.mpr h3)]
  · norm_num [classifyHairColor, rgbToHsl, normHsl, max_def, min_def]
  · norm_num [classifyHairColor, rgbToHsl, normHsl, max_def, min_def]

/-- Witness for C7: RGB (20,20,20) has lightness 4/51 < 0.15 and is
classified BLACK through the first rule. -/
theorem classifyHairColor_ordered_rules_witness :
    classifyHairColor ⟨20, 20, 20⟩ = "BLACK" :=
  (classifyHairColor_ordered_rules ⟨20, 20, 20⟩ 0 0 (4/51)
    (by norm_num [rgbToHsl, normHsl, max_def, min_def])).1 (by norm_num)

/-! ### The gaze estimator -/

lemma estimateGaze_eq (leftEye rightEye nose : Point) (faceBox : Box) :
    estimateGaze leftEye rightEye nose faceBox =
      (if (nose.y - (faceBox.y + faceBox.height / 2)) / faceBox.height < -0.1 then "UP-"
       else if 0.1 < (nose.y - (faceBox.y + faceBox.height / 2)) / faceBox.height then "DOWN-"
       else "") ++
      (if (nose.x - (faceBox.x + faceBox.width / 2)) / faceBox.width < -0.05 then "LEFT"
       else if 0.05 < (nose.x - (faceBox.x + faceBox.width / 2)) / faceBox.width then "RIGHT"
       else "CENTER") := by
  simp only [estimateGaze]
  split_ifs <;> first | rfl | (exfalso; simp_all)

/-- C3: estimateGaze returns the concatenation of a vertical prefix (UP- when
the normalized vertical nose offset is below -0.1, DOWN- above 0.1, empty
otherwise) and a horizontal label (LEFT below -0.05, RIGHT above 0.05,
CENTER otherwise); the result is always one of the nine well-formed labels,
a nose exactly at the face center gives CENTER, and a nose 10 percent of
the box width left of center with no vertical offset gives LEFT. -/
theorem estimateGaze_spec (leftEye rightEye nose : Point) (faceBox : Box) :
    (estimateGaze leftEye rightEye nose faceBox ∈
      ["CENTER", "LEFT", "RIGHT", "UP-CENTER", "UP-LEFT", "UP-RIGHT",
       "DOWN-CENTER", "DOWN-LEFT", "DOWN-RIGHT"]) ∧
    (∀ ox oy : ℚ,
      ox = (nose.x - (faceBox.x + faceBox.width / 2)) / faceBox.width →
      oy = (nose.y - (faceBox.y + faceBox.height / 2)) / faceBox.height →
      estimateGaze leftEye rightEye nose faceBox =
        (if oy < -0.1 then "UP-" else if 0.1 < oy then "DOWN-" else "") ++
        (if ox < -0.05 then "LEFT" else if 0.05 < ox then "RIGHT" else "CENTER")) ∧
    (nose.x = faceBox.x + faceBox.width / 2 → nose.y = faceBox.y + faceBox.height / 2 →
      estimateGaze leftEye rightEye nose faceBox = "CENTER") ∧
    (faceBox.width ≠ 0 → nose.x = faceBox.x + faceBox.width / 2 - faceBox.width / 10 →
      nose.y = faceBox.y + faceBox.height / 2 →
      estimateGaze leftEye rightEye nose faceBox = "LEFT") := by
  refine ⟨?_, ?_, ?_, ?_⟩
  · rw [estimateGaze_eq]
    split_ifs <;> simp
  · intro ox oy hox hoy
    rw [hox, hoy]
    exact estimateGaze_eq leftEye rightEye nose faceBox
  · intro h1 h2
    rw [estimateGaze_eq,
      show nose.x - (faceBox.x + faceBox.width / 2) = 0 by rw [h1]; ring,
      show nose.y - (faceBox.y + faceBox.height / 2) = 0 by rw [h2]; ring]
    norm_num
  · intro hw h1 h2
    rw [estimateGaze_eq,
      show nose.x - (faceBox.x + faceBox.width / 2) = -(faceBox.width / 10) by rw [h1]; ring,
      show nose.y - (faceBox.y + faceBox.height / 2) = 0 by rw [h2]; ring,
      show -(faceBox.width / 10) / faceBox.width = -(1/10) by
        field_simp
        ring]
    norm_num

/-- Witness for C3: a 100-wide box at the origin with the nose 10 units left
of center is reported LEFT. -/
theorem estimateGaze_spec_witness :
    estimateGaze ⟨0, 0⟩ ⟨0, 0⟩ ⟨40, 50⟩ ⟨0, 0, 100, 100⟩ = "LEFT" :=
  (estimateGaze_spec ⟨0, 0⟩ ⟨0, 0⟩ ⟨40, 50⟩ ⟨0, 0, 100, 100⟩).2.2.2
    (by norm_num) (by norm_num) (by norm_num)

/-- C8: the background label is the independent combination of the color
name (ordered hue buckets with an achromatic override below saturation 0.1)
and the brightness bucket of the channel mean, joined with the separator
" / "; a uniform black region yields "DARK / DARK ENVIRONMENT". -/
theorem backgroundLabel_spec (c : RGB) (h s l : ℚ)
    (hhsl : rgbToHsl c.r c.g c.b = ⟨h, s, l⟩) :
    ((c.r + c.g + c.b) / 3 < 50 →
      backgroundLabel c = classifyBackgroundColor c ++ " / " ++ "DARK ENVIRONMENT") ∧
    (50 ≤ (c.r + c.g + c.b) / 3 → (c.r + c.g + c.b) / 3 < 100 →
      backgroundLabel c = classifyBackgroundColor c ++ " / " ++ "DIM LIGHTING") ∧
    (100 ≤ (c.r + c.g + c.b) / 3 → (c.r + c.g + c.b) / 3 < 180 →
      backgroundLabel c = classifyBackgroundColor c ++ " / " ++ "NORMAL LIGHTING") ∧
    (180 ≤ (c.r + c.g + c.b) / 3 →
      backgroundLabel c = classifyBackgroundColor c ++ " / " ++ "BRIGHT ENVIRONMENT") ∧
    (s < 0.1 → classifyBackgroundColor c =
      if l < 0.3 then "DARK" else if 0.7 < l then "LIGHT" else "NEUTRAL") ∧
    (0.1 ≤ s → classifyBackgroundColor c =
      if h < 30 then "WARM TONES" else if h < 90 then "YELLOW/GREEN"
      else if h < 150 then "GREEN/CYAN" else if h < 210 then "BLUE"
      else if h < 270 then "PURPLE" else if h < 330 then "PINK/MAGENTA"
      else "RED/WARM") ∧
    backgroundLabel ⟨0, 0, 0⟩ = "DARK / DARK ENVIRONMENT" := by
  refine ⟨?_, ?_, ?_, ?_, ?_, ?_, ?_⟩
  · intro h1
    simp only [backgroundLabel]
    rw [if_pos h1]
  · intro h1 h2
    simp only [backgroundLabel]
    rw [if_neg (not_lt.mpr h1), if_pos h2]
  · intro h1 h2
    simp only [backgroundLabel]
    rw [if_neg (not_lt.mpr (by linarith)), if_neg (not_lt.mpr h1), if_pos h2]
  · intro h1
    simp only [backgroundLabel]
    rw [if_neg (not_lt.mpr (by linarith)), if_neg (not_lt.mpr (by linarith)),
      if_neg (not_lt.mpr h1)]
  · intro hs
    simp only [classifyBackgroundColor, hhsl]
    rw [if_pos hs]
  · intro hs
    simp only [classifyBackgroundColor, hhsl]
    rw [if_neg (not_lt.mpr hs)]
  · have hcol : classifyBackgroundColor ⟨0, 0, 0⟩ = "DARK" := by
      norm_num [classifyBackgroundColor, rgbToHsl, normHsl, max_def, min_def]
    simp only [backgroundLabel, hcol]
    norm_num
    rfl

/-- Witness for C8: for the black input the brightness is 0 < 50, giving the
DARK ENVIRONMENT bucket through the first rule. -/
theorem backgroundLabel_spec_witness :
    backgroundLabel ⟨0, 0, 0⟩ = classifyBackgroundColor ⟨0, 0, 0⟩ ++ " / " ++ "DARK ENVIRONMENT" :=
  (backgroundLabel_spec ⟨0, 0, 0⟩ 0 0 0
    (by norm_num [rgbToHsl, normHsl, max_def, min_def])).1 (by norm_num)

/-! ### The color averager -/

lemma mathRound_natCast (n : ℕ) : mathRound (n : ℚ) = (n : ℤ) := by
  unfold mathRound
  rw [show ((n : ℚ) + 1/2) = ((n : ℤ) : ℚ) + 1/2 by push_cast; ring, Int.floor_int_add]
  norm_num

/-- C5: on every non-empty interleaved RGBA buffer getDominantColor returns
the unweighted per-channel mean of R, G and B, each rounded to the nearest
integer; the alpha channel never influences the result; and a buffer in
which every pixel carries the same color averages to exactly that color. -/
theorem getDominantColor_spec :
    (∀ pixels : List RGBA, pixels ≠ [] →
      getDominantColor pixels = some
        { r := (mathRound ((pixels.map fun p => (p.r : ℚ)).sum / pixels.length) : ℤ)
          g := (mathRound ((pixels.map fun p => (p.g : ℚ)).sum / pixels.length) : ℤ)
          b := (mathRound ((pixels.map fun p => (p.b : ℚ)).sum / pixels.length) : ℤ) }) ∧
    (∀ (pixels : List RGBA) (alpha : RGBA → ℕ),
      getDominantColor (pixels.map fun p => ⟨p.r, p.g, p.b, alpha p⟩) =
        getDominantColor pixels) ∧
    (∀ (px : RGBA) (n : ℕ), n ≠ 0 →
      getDominantColor (List.replicate n px) = some ⟨(px.r : ℚ), (px.g : ℚ), (px.b : ℚ)⟩) := by
  refine ⟨?_, ?_, ?_⟩
  · intro pixels hne
    simp only [getDominantColor]
    rw [if_neg fun hc => hne (List.length_eq_zero.mp hc)]
  · intro pixels alpha
    simp only [getDominantColor, List.map_map, List.length_map, Function.comp_def]
  · intro px n hn
    have hcast : ((n : ℚ)) ≠ 0 := Nat.cast_ne_zero.mpr hn
    simp only [getDominantColor, List.map_replicate, List.sum_replicate, nsmul_eq_mul,
      List.length_replicate, if_neg hn]
    rw [mul_div_cancel_left₀ _ hcast, mul_div_cancel_left₀ _ hcast,
      mul_div_cancel_left₀ _ hcast]
    simp [mathRound_natCast]

/-- Witness for C5: three copies of the color (10,20,30,40) average to
exactly (10,20,30). -/
theorem getDominantColor_spec_witness :
    getDominantColor (List.replicate 3 ⟨10, 20, 30, 40⟩) =
      some ⟨((10 : ℕ) : ℚ), ((20 : ℕ) : ℚ), ((30 : ℕ) : ℚ)⟩ :=
  getDominantColor_spec.2.2 ⟨10, 20, 30, 40⟩ 3 (by norm_num)

/-! ### Change-triggered reporting -/

lemma destutter_ne_head_tail (l : List String) (a : String) :
    List.destutter' Ne a l = a :: (List.destutter' Ne a l).tail := by
  induction l generalizing a with
  | nil => rfl
  | cons b l ih =>
    by_cases hab : Ne a b
    · simp [List.destutter'_cons, if_pos hab]
    · simp only [List.destutter'_cons, if_neg hab]
      exact ih a

lemma runReports_from (l : List String) (a : String) (acc : List String) :
    (l.foldl reportIfChanged ⟨some a, acc⟩).entries =
      acc ++ (List.destutter' Ne a l).tail := by
  induction l generalizing a acc with
  | nil => simp
  | cons b l ih =>
    by_cases hab : a = b
    · subst hab
      have hstep : reportIfChanged ⟨some a, acc⟩ a = ⟨some a, acc⟩ := by
        simp [reportIfChanged]
      simp only [List.foldl_cons, hstep, List.destutter'_cons]
      rw [if_neg (by simp : ¬ Ne a a)]
      exact ih a acc
    · have hstep : reportIfChanged ⟨some a, acc⟩ b = ⟨some b, acc ++ [b]⟩ := by
        simp [reportIfChanged, Ne.symm hab]
      simp only [List.foldl_cons, hstep, List.destutter'_cons]
      rw [if_pos (hab : Ne a b), ih b (acc ++ [b])]
      rw [destutter_ne_head_tail l b]
      simp

/-- C4 (amended): for the classifiers whose stored label starts as null (eye
color, hair color, background), the emitted Observation Entries are exactly
the label sequence with consecutive duplicates removed - so the first
classification always emits, two same-label calls emit once, and an entry
is emitted precisely when the computed label differs from the stored one;
for the gaze estimator the stored label starts as CENTER, so its entries
are the destuttering of the sequence with CENTER prepended, the first
classification emitting only when it differs from CENTER. -/
theorem report_change_triggered :
    (∀ labels : List String, (runReports none labels).entries = labels.destutter Ne) ∧
    (∀ l1 l2 : String,
      (runReports none [l1, l2]).entries = if l1 = l2 then [l1] else [l1, l2]) ∧
    (∀ labels : List String,
      (runReports (some "CENTER") labels).entries =
        (("CENTER" :: labels).destutter Ne).tail) := by
  have key : ∀ labels : List String, (runReports none labels).entries = labels.destutter Ne := by
    intro labels
    cases labels with
    | nil => rfl
    | cons a l =>
      have hstep : reportIfChanged ⟨none, []⟩ a = ⟨some a, [a]⟩ := by
        simp [reportIfChanged]
      simp only [runReports, List.foldl_cons, hstep, List.destutter_cons']
      rw [runReports_from l a [a], destutter_ne_head_tail l a]
      simp
  refine ⟨key, ?_, ?_⟩
  · intro l1 l2
    rw [key [l1, l2]]
    by_cases h12 : l1 = l2
    · subst h12
      simp [List.destutter, List.destutter'_cons]
    · simp [List.destutter, List.destutter'_cons, h12]
  · intro labels
    simp only [runReports, List.destutter_cons']
    rw [runReports_from labels "CENTER" []]
    simp

/-- C4 counterexample: the claim says the first classification always emits
one Entry, but the gaze reporter's stored label is initialized to CENTER
(state.gazeDirection starts as 'CENTER'), so a first gaze classification of
CENTER emits nothing, while the color classifiers (stored label null) do
emit on their first classification. -/
theorem gaze_first_report_silent :
    (runReports (some "CENTER") ["CENTER"]).entries = [] ∧
    (runReports none ["CENTER"]).entries = ["CENTER"] := by
  constructor <;> rfl

/-! ### Empty sampling regions -/

/-- C6 counterexample: on a detection canvas only 3 pixels wide, the width
of the fallback eye-sampling region truncates to zero, yet analyzeColors
still runs the pass (its guard looks only at the webcam and canvas flags,
never at region sizes) and the sampling call fails; getDominantColor itself
yields an undefined mean (none) on an empty buffer rather than being
guarded against a zero divisor. -/
theorem analyzeColors_region_unguarded :
    analyzeColorsRuns true true = true ∧
    3 * 3 / 10 = 0 ∧
    analyzeEyeColorFallback (fun _ _ => ⟨0, 0, 0, 255⟩) 3 480 = none ∧
    getDominantColor [] = none := by
  refine ⟨rfl, rfl, rfl, rfl⟩

/-- C6 (amended): no caller checks region sizes before sampling - a region
whose computed width or height truncates to zero makes the sampling call
itself fail (modelled as none), aborting the eye-color pass instead of
skipping it; but every successful sampling call returns exactly sw*sh
pixels, hence a non-empty buffer, so the unguarded division inside
getDominantColor never actually sees an empty pixel set. -/
theorem sampling_success_nonempty (frame : ℕ → ℕ → RGBA) (x y sw sh : ℕ)
    (px : List RGBA) (hpx : getImageData frame x y sw sh = some px) :
    px.length = sw * sh ∧ px ≠ [] ∧ getDominantColor px ≠ none ∧
    (∀ w h : ℕ, 3 * w / 10 = 0 ∨ h / 10 = 0 → analyzeEyeColorFallback frame w h = none) := by
  by_cases hc : sw = 0 ∨ sh = 0
  · rw [getImageData, if_pos hc] at hpx
    exact absurd hpx (by simp)
  · push_neg at hc
    rw [getImageData, if_neg (by simp [hc.1, hc.2])] at hpx
    have hlen : px.length = sw * sh := by
      rw [← Option.some_inj.mp hpx]
      simp [List.length_flatMap, Function.comp_def, List.map_const', List.sum_replicate,
        smul_eq_mul, Nat.mul_comm]
    have hne : px ≠ [] := by
      intro hnil
      rw [hnil] at hlen
      exact hc.1 (by
        rcases Nat.mul_eq_zero.mp hlen.symm with h0 | h0
        · exact h0
        · exact absurd h0 hc.2)
    refine ⟨hlen, hne, ?_, ?_⟩
    · simp only [getDominantColor]
      rw [if_neg fun h0 => hne (List.length_eq_zero.mp h0)]
      simp
    · intro w h hwh
      rcases hwh with h0 | h0 <;>
        simp [analyzeEyeColorFallback, getImageData, h0]

/-- Witness for C6's amended statement: a concrete 1-by-2 sampling succeeds
with exactly two pixels. -/
theorem sampling_success_nonempty_witness :
    ([⟨1, 2, 3, 4⟩, ⟨1, 2, 3, 4⟩] : List RGBA).length = 1 * 2 ∧
    ([⟨1, 2, 3, 4⟩, ⟨1, 2, 3, 4⟩] : List RGBA) ≠ [] ∧
    getDominantColor [⟨1, 2, 3, 4⟩, ⟨1, 2, 3, 4⟩] ≠ none ∧
    (∀ w h : ℕ, 3 * w / 10 = 0 ∨ h / 10 = 0 →
      analyzeEyeColorFallback (fun _ _ => ⟨1, 2, 3, 4⟩) w h = none) :=
  sampling_success_nonempty (fun _ _ => ⟨1, 2, 3, 4⟩) 0 0 1 2 [⟨1, 2, 3, 4⟩, ⟨1, 2, 3, 4⟩] rfl

/-! ### The round-trip through the inverse conversion -/

lemma hue2rgb_low (p q t : ℚ) (h0 : 0 ≤ t) (h1 : t < 1/6) :
    hue2rgb p q t = p + (q - p) * 6 * t := by
  simp only [hue2rgb]
  rw [if_neg (not_lt.mpr h0), if_neg (not_lt.mpr (by linarith : t ≤ 1)), if_pos h1]

lemma hue2rgb_mid (p q t : ℚ) (h0 : 1/6 ≤ t) (h1 : t < 1/2) :
    hue2rgb p q t = q := by
  simp only [hue2rgb]
  rw [if_neg (not_lt.mpr (by linarith : (0:ℚ) ≤ t)), if_neg (not_lt.mpr (by linarith : t ≤ 1)),
    if_neg (not_lt.mpr h0), if_pos h1]

lemma hue2rgb_third (p q t : ℚ) (h0 : 1/2 ≤ t) (h1 : t < 2/3) :
    hue2rgb p q t = p + (q - p) * (2/3 - t) * 6 := by
  simp only [hue2rgb]
  rw [if_neg (not_lt.mpr (by linarith : (0:ℚ) ≤ t)), if_neg (not_lt.mpr (by linarith : t ≤ 1)),
    if_neg (not_lt.mpr (by linarith : 1/6 ≤ t)), if_neg (not_lt.mpr h0), if_pos h1]

lemma hue2rgb_high (p q t : ℚ) (h0 : 2/3 ≤ t) (h1 : t ≤ 1) :
    hue2rgb p q t = p := by
  simp only [hue2rgb]
  rw [if_neg (not_lt.mpr (by linarith : (0:ℚ) ≤ t)), if_neg (not_lt.mpr h1),
    if_neg (not_lt.mpr (by linarith : 1/6 ≤ t)), if_neg (not_lt.mpr (by linarith : 1/2 ≤ t)),
    if_neg (not_lt.mpr h0)]

lemma hue2rgb_wrap_neg (p q t : ℚ) (h0 : -1 ≤ t) (h1 : t < 0) :
    hue2rgb p q t = hue2rgb p q (t + 1) := by
  simp only [hue2rgb]
  rw [if_pos h1, if_neg (not_lt.mpr (by linarith : (0:ℚ) ≤ t + 1)),
    if_neg (not_lt.mpr (by linarith : t + 1 ≤ 1))]

lemma hue2rgb_wrap_high (p q t : ℚ) (h0 : 1 < t) (h1 : t ≤ 2) :
    hue2rgb p q t = hue2rgb p q (t - 1) := by
  simp only [hue2rgb]
  rw [if_neg (not_lt.mpr (by linarith : (0:ℚ) ≤ t)), if_pos h0,
    if_neg (not_lt.mpr (by linarith : (0:ℚ) ≤ t - 1)),
    if_neg (not_lt.mpr (by linarith : t - 1 ≤ 1))]

lemma backSat_pos (M m : ℚ) (hm0 : 0 ≤ m) (hM1 : M ≤ 1) (hlt : m < M) :
    0 < (if 0.5 < (M + m) / 2 then (M - m) / (2 - M - m) else (M - m) / (M + m)) := by
  split_ifs with hl
  · exact div_pos (by linarith) (by linarith)
  · exact div_pos (by linarith) (by linarith)

lemma backQ_eq_max (M m : ℚ) (hm0 : 0 ≤ m) (hM1 : M ≤ 1) (hlt : m < M) :
    (if (M + m) / 2 < 1/2 then
      (M + m) / 2 * (1 + if 0.5 < (M + m) / 2 then (M - m) / (2 - M - m) else (M - m) / (M + m))
    else (M + m) / 2 + (if 0.5 < (M + m) / 2 then (M - m) / (2 - M - m) else (M - m) / (M + m))
      - (M + m) / 2 * (if 0.5 < (M + m) / 2 then (M - m) / (2 - M - m) else (M - m) / (M + m)))
      = M := by
  have h05 : (0.5 : ℚ) = 1/2 := by norm_num
  rcases lt_trichotomy ((M + m) / 2) (1/2) with hl | hl | hl
  · rw [if_pos hl, if_neg (by rw [h05]; exact not_lt.mpr hl.le)]
    have hMm : M + m ≠ 0 := by linarith
    field_simp
    ring
  · rw [if_neg (not_lt.mpr hl.ge), if_neg (by rw [h05, hl]; exact lt_irrefl _)]
    have hMm : M + m = 1 := by linarith
    rw [hMm]
    norm_num
    linarith
  · rw [if_neg (not_lt.mpr hl.le), if_pos (by rw [h05]; exact hl)]
    have hMm : 2 - M - m ≠ 0 := by linarith
    field_simp
    ring

lemma roundtrip_norm (u v w : ℚ)
    (h0u : 0 ≤ u) (h1u : u ≤ 1) (h0v : 0 ≤ v) (h1v : v ≤ 1) (h0w : 0 ≤ w) (h1w : w ≤ 1)
    (hne : max u (max v w) ≠ min u (min v w)) :
    hslToRgb (normHsl u v w).h (normHsl u v w).s (normHsl u v w).l =
      ⟨255 * u, 255 * v, 255 * w⟩ := by
  have huM : u ≤ max u (max v w) := le_max_left _ _
  have hvM : v ≤ max u (max v w) := le_trans (le_max_left _ _) (le_max_right _ _)
  have hwM : w ≤ max u (max v w) := le_trans (le_max_right _ _) (le_max_right _ _)
  have hmu : min u (min v w) ≤ u := min_le_left _ _
  have hmv : min u (min v w) ≤ v := le_trans (min_le_right _ _) (min_le_left _ _)
  have hmw : min u (min v w) ≤ w := le_trans (min_le_right _ _) (min_le_right _ _)
  have hm0 : 0 ≤ min u (min v w) := le_min h0u (le_min h0v h0w)
  have hM1 : max u (max v w) ≤ 1 := max_le h1u (max_le h1v h1w)
  have hmM : min u (min v w) < max u (max v w) :=
    lt_of_le_of_ne (le_trans hmu huM) fun h => hne h.symm
  have hd : 0 < max u (max v w) - min u (min v w) := sub_pos.mpr hmM
  rw [normHsl_chromatic u v w hne]
  dsimp only
  simp only [hslToRgb]
  rw [mul_div_cancel_right₀ _ (by norm_num : (360:ℚ) ≠ 0)]
  rw [if_neg (backSat_pos _ _ hm0 hM1 hmM).ne']
  rw [backQ_eq_max _ _ hm0 hM1 hmM]
  rw [show 2 * ((max u (max v w) + min u (min v w)) / 2) - max u (max v w)
      = min u (min v w) from by ring]
  rw [RGB.mk.injEq]
  by_cases hMu : max u (max v w) = u
  · rw [if_pos hMu]
    have hvu : v ≤ u := by rw [← hMu]; exact hvM
    have hwu : w ≤ u := by rw [← hMu]; exact hwM
    by_cases hvw : v < w
    · have hm : min u (min v w) = v := by
        rw [min_eq_left hvw.le, min_eq_right hvu]
      rw [if_pos hvw, hMu, hm]
      rw [hMu, hm] at hd
      have hx0 : (v - w) / (u - v) < 0 := div_neg_of_neg_of_pos (by linarith) hd
      have hx1 : -1 ≤ (v - w) / (u - v) := by
        rw [le_div_iff₀ hd]
        linarith
      refine ⟨?_, ?_, ?_⟩
      · rw [hue2rgb_wrap_high _ _ _ (by linarith) (by linarith),
          hue2rgb_mid _ _ _ (by linarith) (by linarith)]
      · rw [hue2rgb_high _ _ _ (by linarith) (by linarith)]
      · rw [hue2rgb_third _ _ _ (by linarith) (by linarith)]
        field_simp
        ring
    · have hm : min u (min v w) = w := by
        rw [min_eq_right (not_lt.mp hvw), min_eq_right hwu]
      rw [if_neg hvw, hMu, hm]
      rw [hMu, hm] at hd
      have hwv : w ≤ v := not_lt.mp hvw
      have hx0 : 0 ≤ (v - w) / (u - w) := div_nonneg (by linarith) hd.le
      have hx1 : (v - w) / (u - w) ≤ 1 := (div_le_one hd).mpr (by linarith)
      rcases lt_or_eq_of_le hx1 with hx | hx
      · refine ⟨?_, ?_, ?_⟩
        · rw [hue2rgb_mid _ _ _ (by linarith) (by linarith)]
        · rw [hue2rgb_low _ _ _ (by linarith) (by linarith)]
          field_simp
        · rw [hue2rgb_wrap_neg _ _ _ (by linarith) (by linarith),
            hue2rgb_high _ _ _ (by linarith) (by linarith)]
      · have hveq : v = u := by
          have h1 : v - w = u - w := (div_eq_one_iff_eq hd.ne').mp hx
          linarith
        subst hveq
        rw [div_self hd.ne']
        refine ⟨?_, ?_, ?_⟩
        · rw [hue2rgb_third _ _ _ (by norm_num) (by norm_num)]
          ring
        · rw [hue2rgb_mid _ _ _ (by norm_num) (by norm_num)]
        · rw [hue2rgb_wrap_neg _ _ _ (by norm_num) (by norm_num),
            hue2rgb_high _ _ _ (by norm_num) (by norm_num)]
  · rw [if_neg hMu]
    have huM2 : u < max u (max v w) := lt_of_le_of_ne huM fun h => hMu h.symm
    by_cases hMv : max u (max v w) = v
    · rw [if_pos hMv]
      have huv : u ≤ v := by rw [← hMv]; exact huM
      have hwv : w ≤ v := by rw [← hMv]; exact hwM
      by_cases hwu : w < u
      · have hm : min u (min v w) = w := by
          rw [min_eq_right hwv, min_eq_right hwu.le]
        rw [hMv, hm]
        rw [hMv, hm] at hd
        have hy0 : (w - u) / (v - w) < 0 := div_neg_of_neg_of_pos (by linarith) hd
        have hy1 : -1 ≤ (w - u) / (v - w) := by
          rw [le_div_iff₀ hd]
          linarith
        refine ⟨?_, ?_, ?_⟩
        · rw [hue2rgb_third _ _ _ (by linarith) (by linarith)]
          field_simp
          ring
        · rw [hue2rgb_mid _ _ _ (by linarith) (by linarith)]
        · rw [hue2rgb_wrap_neg _ _ _ (by linarith) (by linarith),
            hue2rgb_high _ _ _ (by linarith) (by linarith)]
      · have huw : u ≤ w := not_lt.mp hwu
        have hm : min u (min v w) = u := by
          rw [min_eq_left (le_min huv huw)]
        rw [hMv, hm]
        rw [hMv, hm] at hd
        have hy0 : 0 ≤ (w - u) / (v - u) := div_nonneg (by linarith) hd.le
        have hy1 : (w - u) / (v - u) ≤ 1 := (div_le_one hd).mpr (by linarith)
        rcases lt_or_eq_of_le hy1 with hy | hy
        · refine ⟨?_, ?_, ?_⟩
          · rw [hue2rgb_high _ _ _ (by linarith) (by linarith)]
          · rw [hue2rgb_mid _ _ _ (by linarith) (by linarith)]
          · rw [hue2rgb_low _ _ _ (by linarith) (by linarith)]
            field_simp
            ring
        · have hweq : w = v := by
            have h1 : w - u = v - u := (div_eq_one_iff_eq hd.ne').mp hy
            linarith
          subst hweq
          rw [div_self hd.ne']
          refine ⟨?_, ?_, ?_⟩
          · rw [hue2rgb_high _ _ _ (by norm_num) (by norm_num)]
          · rw [hue2rgb_third _ _ _ (by norm_num) (by norm_num)]
            ring
          · rw [hue2rgb_mid _ _ _ (by norm_num) (by norm_num)]
    · rw [if_neg hMv]
      have hMw : max u (max v w) = w := by
        rcases max_choice u (max v w) with h | h
        · exact absurd h hMu
        · rcases max_choice v w with h2 | h2
          · exact absurd (h.trans h2) hMv
          · exact h.trans h2
      have hvM2 : v < max u (max v w) := lt_of_le_of_ne hvM fun h => hMv h.symm
      rw [hMw] at huM2 hvM2
      by_cases hvu : v < u
      · have hm : min u (min v w) = v := by
          rw [min_eq_left hvM2.le, min_eq_right hvu.le]
        rw [hMw, hm]
        rw [hMw, hm] at hd
        have hz0 : 0 < (u - v) / (w - v) := div_pos (by linarith) hd
        have hz1 : (u - v) / (w - v) < 1 := (div_lt_one hd).mpr (by linarith)
        refine ⟨?_, ?_, ?_⟩
        · rw [hue2rgb_wrap_high _ _ _ (by linarith) (by linarith),
            hue2rgb_low _ _ _ (by linarith) (by linarith)]
          field_simp
          ring
        · rw [hue2rgb_high _ _ _ (by linarith) (by linarith)]
        · rw [hue2rgb_mid _ _ _ (by linarith) (by linarith)]
      · have huv : u ≤ v := not_lt.mp hvu
        have hm : min u (min v w) = u := by
          rw [min_eq_left (le_min huv huM2.le)]
        rw [hMw, hm]
        rw [hMw, hm] at hd
        have hz0 : (u - v) / (w - u) ≤ 0 :=
          div_nonpos_of_nonpos_of_nonneg (by linarith) hd.le
        have hz1 : -1 < (u - v) / (w - u) := by
          rw [lt_div_iff₀ hd]
          linarith
        rcases lt_or_eq_of_le hz0 with hz | hz
        · refine ⟨?_, ?_, ?_⟩
          · rw [hue2rgb_high _ _ _ (by linarith) (by linarith)]
          · rw [hue2rgb_third _ _ _ (by linarith) (by linarith)]
            field_simp
            ring
          · rw [hue2rgb_mid _ _ _ (by linarith) (by linarith)]
        · have hueq : u = v := by
            rcases div_eq_zero_iff.mp hz with h1 | h1
            · linarith
            · exact absurd h1 hd.ne'
          subst hueq
          rw [sub_self, zero_div]
          refine ⟨?_, ?_, ?_⟩
          · rw [hue2rgb_high _ _ _ (by norm_num) (by norm_num)]
          · rw [hue2rgb_high _ _ _ (by norm_num) (by norm_num)]
          · rw [hue2rgb_mid _ _ _ (by norm_num) (by norm_num)]

/-- C9: for every RGB triple in range, excluding the achromatic case where
all three channels agree, converting through rgbToHsl and applying the
inverse HSL-to-RGB conversion recovers the input exactly (the rational
embedding makes "within floating rounding tolerance" exact). -/
theorem hsl_roundtrip (r g b : ℚ)
    (hr0 : 0 ≤ r) (hr1 : r ≤ 255) (hg0 : 0 ≤ g) (hg1 : g ≤ 255)
    (hb0 : 0 ≤ b) (hb1 : b ≤ 255) (hne : ¬(r = g ∧ g = b)) :
    hslToRgb (rgbToHsl r g b).h (rgbToHsl r g b).s (rgbToHsl r g b).l = ⟨r, g, b⟩ := by
  have hdiv : ∀ x y : ℚ, x / 255 = y / 255 → x = y := by
    intro x y hxy
    have := congrArg (fun z => z * 255) hxy
    simpa using this
  have hne2 : max (r/255) (max (g/255) (b/255)) ≠ min (r/255) (min (g/255) (b/255)) := by
    rw [Ne, max_eq_min_iff]
    rintro ⟨h1, h2⟩
    exact hne ⟨hdiv _ _ h1, hdiv _ _ h2⟩
  rw [rgbToHsl, roundtrip_norm (r/255) (g/255) (b/255)
    (by positivity) ((div_le_one (by norm_num)).mpr hr1)
    (by positivity) ((div_le_one (by norm_num)).mpr hg1)
    (by positivity) ((div_le_one (by norm_num)).mpr hb1) hne2]
  rw [RGB.mk.injEq]
  refine ⟨?_, ?_, ?_⟩ <;> field_simp

/-- Witness for C9 at the concrete chromatic input (30, 80, 200). -/
theorem hsl_roundtrip_witness :
    hslToRgb (rgbToHsl 30 80 200).h (rgbToHsl 30 80 200).s (rgbToHsl 30 80 200).l =
      ⟨30, 80, 200⟩ :=
  hsl_roundtrip 30 80 200 (by norm_num) (by norm_num) (by norm_num) (by norm_num)
    (by norm_num) (by norm_num) (by norm_num)

/-- C10: the core analysis functions of the older script version and the
newer version agree on every input - getDominantColor, rgbToHsl,
classifyEyeColor, classifyHairColor, classifyBackgroundColor and
estimateGaze all return the same results (the older estimateGaze computes
an eye midpoint that its result never uses). -/
theorem v1_v2_core_equivalence :
    (∀ pixels : List RGBA, V1.getDominantColor pixels = getDominantColor pixels) ∧
    (∀ r g b : ℚ, V1.rgbToHsl r g b = rgbToHsl r g b) ∧
    (∀ c : RGB, V1.classifyEyeColor c = classifyEyeColor c) ∧
    (∀ c : RGB, V1.classifyHairColor c = classifyHairColor c) ∧
    (∀ c : RGB, V1.classifyBackgroundColor c = classifyBackgroundColor c) ∧
    (∀ (leftEye rightEye nose : Point) (faceBox : Box),
      V1.estimateGaze leftEye rightEye nose faceBox =
        estimateGaze leftEye rightEye nose faceBox) :=
  ⟨fun _ => rfl, fun _ _ _ => rfl, fun _ => rfl, fun _ => rfl, fun _ => rfl,
    fun _ _ _ _ => rfl⟩

end NetArt
